import Mathlib

set_option maxHeartbeats 1000000
set_option maxRecDepth 100000

/-!
Shallow embedding of the DNS message decoder of the `dns-resolver` repository.

Two versions of the parser package appear in the sources:

* namespace `Parser` embeds `src/internal/parser/parser.go` (the package at the
  repository's import path `internal/parser`).  Its `parseDomainName` handles
  only plain labels — no compression pointers — and performs no bounds checks.
* namespace `ParserV0` embeds `src/unnamed/part_000`, an alternative revision of
  the same package whose `parseDomainName` additionally handles the byte value
  192 as a compression pointer and whose `parseResource` special-cases NS
  records (type 2, class 1).

Go semantics conventions used throughout:

* Byte buffers are `List Nat` (each entry a byte value); Go strings produced by
  the decoder are also byte lists, `46` being the code of the dot character.
* A Go slice-index or slicing operation whose bounds fail is a runtime panic,
  modelled by `GoResult.panic`.
* The single `errors.New` return of `Read` (its "short header" error) is
  modelled by `GoResult.err`.
* `parseDomainName` of `ParserV0` can recurse forever through compression
  pointers; it therefore takes explicit fuel, and exhausting the fuel yields
  `GoResult.diverge`, the marker for non-termination.  The loop of `Parser`'s
  `parseDomainName` always advances its cursor and hence terminates; it is
  given the ample fuel `buffer.length + 1`, which is never exhausted
  (`Parser.parseDomainNameLoop_no_diverge`).
-/

/-- Outcome of running a piece of Go code: a value, the function's error
return, a runtime panic, or non-termination (fuel exhaustion). -/
inductive GoResult (α : Type) where
  | ok : α → GoResult α
  | err : GoResult α
  | panic : GoResult α
  | diverge : GoResult α
deriving DecidableEq, Repr

namespace GoResult

/-- Sequencing: panics, errors and divergence propagate. -/
def bind : GoResult α → (α → GoResult β) → GoResult β
  | .ok a, f => f a
  | .err, _ => .err
  | .panic, _ => .panic
  | .diverge, _ => .diverge

@[simp] theorem ok_bind (a : α) (f : α → GoResult β) : (GoResult.ok a).bind f = f a := rfl

@[simp] theorem err_bind (f : α → GoResult β) : (GoResult.err).bind f = (GoResult.err : GoResult β) := rfl

@[simp] theorem panic_bind (f : α → GoResult β) : (GoResult.panic).bind f = (GoResult.panic : GoResult β) := rfl

@[simp] theorem diverge_bind (f : α → GoResult β) : (GoResult.diverge).bind f = (GoResult.diverge : GoResult β) := rfl

end GoResult

/-- Big-endian 16-bit integer formed from the two bytes of `buffer` at
positions `i` and `i+1` (the contract of `binary.BigEndian.Uint16`). -/
def be16 (buffer : List Nat) (i : Nat) : Nat :=
  256 * buffer.getD i 0 + buffer.getD (i + 1) 0

namespace Parser

/-- Go `type Header struct` of parser.go. -/
structure Header where
  ID : Nat
  Flags : Nat
  QdCount : Nat
  AnCount : Nat
  NsCount : Nat
  ArCount : Nat
deriving DecidableEq, Repr

/-- Go `type Question struct` of parser.go. -/
structure Question where
  QName : List Nat
  QType : Nat
  QClass : Nat
deriving DecidableEq, Repr

/-- Go `type Resource struct` of parser.go. -/
structure Resource where
  RName : List Nat
  RType : Nat
  RClass : Nat
  RTtl : Nat
  RDlength : Nat
  RData : List Nat
deriving DecidableEq, Repr

/-- Go `type Payload struct` of parser.go. -/
structure Payload where
  Header : Header
  Questions : List Question
  Answers : List Resource
  Authorities : List Resource
  Additionals : List Resource
deriving DecidableEq, Repr

/-- Go `buffer[i]`: panics when `i` is out of range. -/
def getByte (buffer : List Nat) (i : Nat) : GoResult Nat :=
  if i < buffer.length then .ok (buffer.getD i 0) else .panic

/-- Go `binary.BigEndian.Uint16(buffer[i : i+2])`: the slice operation panics
when `i + 2 > len(buffer)`. -/
def getUint16 (buffer : List Nat) (i : Nat) : GoResult Nat :=
  if i + 2 ≤ buffer.length then .ok (be16 buffer i) else .panic

/-- Go `binary.BigEndian.Uint32(buffer[i : i+4])`: the slice operation panics
when `i + 4 > len(buffer)`. -/
def getUint32 (buffer : List Nat) (i : Nat) : GoResult Nat :=
  if i + 4 ≤ buffer.length then
    .ok (16777216 * buffer.getD i 0 + 65536 * buffer.getD (i + 1) 0 +
      256 * buffer.getD (i + 2) 0 + buffer.getD (i + 3) 0)
  else .panic

/-- Go `buffer[a:b]`: panics unless `a ≤ b ≤ len(buffer)`. -/
def subslice (buffer : List Nat) (a b : Nat) : GoResult (List Nat) :=
  if a ≤ b ∧ b ≤ buffer.length then .ok ((buffer.drop a).take (b - a)) else .panic

/-- The `for` loop of parser.go's `parseDomainName` (lines 106–115): read a
length octet at `startOff`; zero ends the name, otherwise the next `len` bytes
are one label.  Each iteration advances `startOff`, so the ample fuel supplied
by `parseDomainName` is never exhausted. -/
def parseDomainNameLoop (buffer : List Nat) : Nat → Nat → List (List Nat) → GoResult (List (List Nat) × Nat)
  | 0, _, _ => .diverge
  | fuel + 1, startOff, labels =>
    if startOff < buffer.length then
      if buffer.getD startOff 0 = 0 then .ok (labels, startOff + 1)
      else if startOff + 1 + buffer.getD startOff 0 ≤ buffer.length then
        parseDomainNameLoop buffer fuel (startOff + 1 + buffer.getD startOff 0)
          (labels ++ [(buffer.drop (startOff + 1)).take (buffer.getD startOff 0)])
      else .panic
    else .panic

/-- parser.go `parseDomainName` (lines 102–119): returns the labels joined
with dots and the byte count `startOff - offset`. -/
def parseDomainName (buffer : List Nat) (offset : Nat) : GoResult (List Nat × Nat) :=
  (parseDomainNameLoop buffer (buffer.length + 1) offset []).bind fun p =>
    .ok (List.intercalate [46] p.1, p.2 - offset)

/-- parser.go `parseHeader` (lines 45–54). -/
def parseHeader (buffer : List Nat) : GoResult Header :=
  (getUint16 buffer 0).bind fun id =>
  (getUint16 buffer 2).bind fun flags =>
  (getUint16 buffer 4).bind fun qd =>
  (getUint16 buffer 6).bind fun an =>
  (getUint16 buffer 8).bind fun ns =>
  (getUint16 buffer 10).bind fun ar =>
  .ok ⟨id, flags, qd, an, ns, ar⟩

/-- parser.go `parseQuestion` (lines 84–98).  (In the source the call to
`parseDomainName` discards a third returned value that the function does not
produce; only the name and the consumed count are used.) -/
def parseQuestion (buffer : List Nat) (offset : Nat) : GoResult (Question × Nat) :=
  (parseDomainName buffer offset).bind fun qn =>
  (getUint16 buffer (offset + qn.2)).bind fun qtype =>
  (getUint16 buffer (offset + qn.2 + 2)).bind fun qclass =>
  .ok (⟨qn.1, qtype, qclass⟩, offset + qn.2 + 4)

/-- parser.go `parseResource` (lines 56–81): name, type, class, TTL, RDLENGTH,
then the raw RDATA slice `buffer[offset : offset+rdlen]`. -/
def parseResource (buffer : List Nat) (offset : Nat) : GoResult (Resource × Nat) :=
  (parseDomainName buffer offset).bind fun rn =>
  (getUint16 buffer (offset + rn.2)).bind fun rtype =>
  (getUint16 buffer (offset + rn.2 + 2)).bind fun rclass =>
  (getUint32 buffer (offset + rn.2 + 4)).bind fun rttl =>
  (getUint16 buffer (offset + rn.2 + 8)).bind fun rdlen =>
  (subslice buffer (offset + rn.2 + 10) (offset + rn.2 + 10 + rdlen)).bind fun rddata =>
  .ok (⟨rn.1, rtype, rclass, rttl, rdlen, rddata⟩, offset + rn.2 + 10 + rdlen)

/-- The `QdCount` loop of parser.go `Read`: decode `count` questions starting
at `index`, threading the cursor. -/
def readQuestions (buffer : List Nat) : Nat → Nat → GoResult (List Question × Nat)
  | 0, index => .ok ([], index)
  | count + 1, index =>
    (parseQuestion buffer index).bind fun qi =>
    (readQuestions buffer count qi.2).bind fun rest =>
    .ok (qi.1 :: rest.1, rest.2)

/-- The resource-record loops of parser.go `Read` (answers, authorities,
additionals all use the same shape). -/
def readResources (buffer : List Nat) : Nat → Nat → GoResult (List Resource × Nat)
  | 0, index => .ok ([], index)
  | count + 1, index =>
    (parseResource buffer index).bind fun ri =>
    (readResources buffer count ri.2).bind fun rest =>
    .ok (ri.1 :: rest.1, rest.2)

/-- parser.go `Read` (lines 121–169).  The debug dump iterates over
`buffer[:n]` (a panic when `n` exceeds the slice bounds) and has no other
effect; the 12-byte check is against `len(buffer)`; decoding then uses the
whole `buffer` and never consults `n` again. -/
def Read (buffer : List Nat) (n : Nat) : GoResult Payload :=
  if n ≤ buffer.length then
    if buffer.length < 12 then .err
    else
      (parseHeader (buffer.take 12)).bind fun header =>
      (readQuestions buffer header.QdCount 12).bind fun qs =>
      (readResources buffer header.AnCount qs.2).bind fun ans =>
      (readResources buffer header.NsCount ans.2).bind fun auth =>
      (readResources buffer header.ArCount auth.2).bind fun add =>
      .ok ⟨header, qs.1, ans.1, auth.1, add.1⟩
  else .panic

end Parser

namespace ParserV0

/-- The `for` loop of part_000's `parseDomainName` (lines 115–136), with
`labels` the accumulated Go string.  The byte value 192 triggers the
compression-pointer branch, whose target offset is the single octet
`buffer[startOff+1]` and whose recursive call is the function itself started
at that target with an empty accumulator (the wrapper's subtraction only
affects the discarded second component).  In the label branch the source
checks `buffer[len] == 0` — indexing the buffer at the label length — to
decide whether the name ends.  Fuel decreases on every step; pointer chains
can revisit earlier offsets, so exhaustion (`diverge`) is reachable and
models non-termination. -/
def parseDomainNameLoop (buffer : List Nat) : Nat → Nat → List Nat → GoResult (List Nat × Nat)
  | 0, _, _ => .diverge
  | fuel + 1, startOff, labels =>
    if startOff < buffer.length then
      if buffer.getD startOff 0 = 192 then
        if startOff + 1 < buffer.length then
          (parseDomainNameLoop buffer fuel (buffer.getD (startOff + 1) 0) []).bind fun p =>
            .ok (labels ++ p.1, startOff + 2)
        else .panic
      else if startOff + 1 + buffer.getD startOff 0 ≤ buffer.length then
        if buffer.getD startOff 0 < buffer.length then
          if buffer.getD (buffer.getD startOff 0) 0 = 0 then
            .ok (labels ++ (buffer.drop (startOff + 1)).take (buffer.getD startOff 0),
              startOff + buffer.getD startOff 0 + 2)
          else
            parseDomainNameLoop buffer fuel (startOff + buffer.getD startOff 0 + 1)
              (labels ++ (buffer.drop (startOff + 1)).take (buffer.getD startOff 0) ++ [46])
        else .panic
      else .panic
    else .panic

/-- part_000 `parseDomainName` (lines 111–140). -/
def parseDomainName (fuel : Nat) (buffer : List Nat) (offset : Nat) : GoResult (List Nat × Nat) :=
  (parseDomainNameLoop buffer fuel offset []).bind fun p => .ok (p.1, p.2 - offset)

/-- part_000 `parseQuestion` (lines 93–107); identical to parser.go's apart
from calling this file's name decoder. -/
def parseQuestion (fuel : Nat) (buffer : List Nat) (offset : Nat) : GoResult (Parser.Question × Nat) :=
  (parseDomainName fuel buffer offset).bind fun qn =>
  (Parser.getUint16 buffer (offset + qn.2)).bind fun qtype =>
  (Parser.getUint16 buffer (offset + qn.2 + 2)).bind fun qclass =>
  .ok (⟨qn.1, qtype, qclass⟩, offset + qn.2 + 4)

/-- part_000 `parseResource` (lines 55–90): after RDLENGTH, an NS record
(type 2 with class 1) has its RDATA slice re-decoded as a domain name taken
relative to the slice itself, and the decoded name's bytes — not the raw
slice — become `RData`; every other record keeps the raw slice. -/
def parseResource (fuel : Nat) (buffer : List Nat) (offset : Nat) : GoResult (Parser.Resource × Nat) :=
  (parseDomainName fuel buffer offset).bind fun rn =>
  (Parser.getUint16 buffer (offset + rn.2)).bind fun rtype =>
  (Parser.getUint16 buffer (offset + rn.2 + 2)).bind fun rclass =>
  (Parser.getUint32 buffer (offset + rn.2 + 4)).bind fun rttl =>
  (Parser.getUint16 buffer (offset + rn.2 + 8)).bind fun rdlen =>
  if rtype = 2 ∧ rclass = 1 then
    (Parser.subslice buffer (offset + rn.2 + 10) (offset + rn.2 + 10 + rdlen)).bind fun rdataBuffer =>
    (parseDomainName fuel rdataBuffer 0).bind fun dn =>
    .ok (⟨rn.1, rtype, rclass, rttl, rdlen, dn.1⟩, offset + rn.2 + 10 + rdlen)
  else
    (Parser.subslice buffer (offset + rn.2 + 10) (offset + rn.2 + 10 + rdlen)).bind fun rddata =>
    .ok (⟨rn.1, rtype, rclass, rttl, rdlen, rddata⟩, offset + rn.2 + 10 + rdlen)

/-- The `QdCount` loop of part_000 `Read`. -/
def readQuestions (fuel : Nat) (buffer : List Nat) : Nat → Nat → GoResult (List Parser.Question × Nat)
  | 0, index => .ok ([], index)
  | count + 1, index =>
    (parseQuestion fuel buffer index).bind fun qi =>
    (readQuestions fuel buffer count qi.2).bind fun rest =>
    .ok (qi.1 :: rest.1, rest.2)

/-- The resource-record loops of part_000 `Read`. -/
def readResources (fuel : Nat) (buffer : List Nat) : Nat → Nat → GoResult (List Parser.Resource × Nat)
  | 0, index => .ok ([], index)
  | count + 1, index =>
    (parseResource fuel buffer index).bind fun ri =>
    (readResources fuel buffer count ri.2).bind fun rest =>
    .ok (ri.1 :: rest.1, rest.2)

/-- part_000 `Read` (lines 142–191); `parseHeader` of part_000 is textually
identical to parser.go's, so `Parser.parseHeader` is reused.  The structure
types of part_000 are likewise identical and shared. -/
def Read (fuel : Nat) (buffer : List Nat) (n : Nat) : GoResult Parser.Payload :=
  if n ≤ buffer.length then
    if buffer.length < 12 then .err
    else
      (Parser.parseHeader (buffer.take 12)).bind fun header =>
      (readQuestions fuel buffer header.QdCount 12).bind fun qs =>
      (readResources fuel buffer header.AnCount qs.2).bind fun ans =>
      (readResources fuel buffer header.NsCount ans.2).bind fun auth =>
      (readResources fuel buffer header.ArCount auth.2).bind fun add =>
      .ok ⟨header, qs.1, ans.1, auth.1, add.1⟩
  else .panic

end ParserV0

/-! ### Concrete message buffers used by the claims -/

/-- A 12-byte message whose header declares `QdCount = 1` but which contains
no bytes after the header. -/
def truncatedQuestionMsg : List Nat := [0, 0, 0, 0, 0, 1, 0, 0, 0, 0, 0, 0]

/-- The spec's compression example: offset 0 holds `[3,'c','o','m',0]` and
offset 5 holds `[3,'w','w','w',0xC0,0x00]`. -/
def pointerExampleBuf : List Nat := [3, 99, 111, 109, 0, 3, 119, 119, 119, 192, 0]

/-- A 2-byte name consisting solely of a compression pointer whose target
offset (0) equals the pointer's own offset. -/
def selfPointerBuf : List Nat := [192, 0]

/-- A message with `QdCount = 1` whose question bytes `[0, 0,1, 0,1]` sit at
offsets 12–16, beyond the valid length `n = 12` of the datagram. -/
def staleQuestionMsg : List Nat :=
  [0, 0, 0, 0, 0, 1, 0, 0, 0, 0, 0, 0, 0, 0, 1, 0, 1]

/-- A resource record at offset 0: root name, type 2 (NS), class 1 (IN),
TTL 0, RDLENGTH 1, and the single RDATA octet `0`. -/
def nsRecordBuf : List Nat := [0, 0, 0, 2, 0, 1, 0, 0, 0, 0, 0, 1, 0]

/-- A resource record at offset 0 declaring `RDLENGTH = 5` with no RDATA
octets left in the buffer. -/
def truncatedRecordBuf : List Nat := [0, 0, 1, 0, 1, 0, 0, 0, 0, 0, 5]

/-- Five labels of 63 bytes each (total reconstructed name 319 octets,
beyond the RFC limit of 255), terminated by the zero octet. -/
def overlongNameBuf : List Nat :=
  (List.replicate 5 ((63 : Nat) :: List.replicate 63 97)).flatten ++ [0]

/-! ### Divergence of the compression-pointer loop of part_000 -/

/-- Started at offset 0 of `pointerExampleBuf`, part_000's name loop walks
com, an empty label, www, then the pointer at offset 9 sends it back to
offset 0 with a fresh accumulator: the state recurs every four steps, so
every fuel is exhausted. -/
theorem parserV0_pointerExample_loop0 :
    ∀ f, ParserV0.parseDomainNameLoop pointerExampleBuf f 0 [] = GoResult.diverge := by
  intro f
  induction f using Nat.strong_induction_on with
  | _ f ih =>
    match f with
    | 0 => rfl
    | 1 => rfl
    | 2 => rfl
    | 3 => rfl
    | g + 4 =>
      have step : ParserV0.parseDomainNameLoop pointerExampleBuf (g + 4) 0 [] =
          (ParserV0.parseDomainNameLoop pointerExampleBuf g 0 []).bind fun p =>
            GoResult.ok ([99, 111, 109, 46, 46, 119, 119, 119, 46] ++ p.1, 11) := rfl
      rw [step, ih g (by omega)]
      rfl

/-- Started at offset 5 (the spec's example offset), the loop reads www and
then the pointer at offset 9, landing in the divergent walk from offset 0. -/
theorem parserV0_pointerExample_loop5 :
    ∀ f, ParserV0.parseDomainNameLoop pointerExampleBuf f 5 [] = GoResult.diverge := by
  intro f
  match f with
  | 0 => rfl
  | 1 => rfl
  | g + 2 =>
    have step : ParserV0.parseDomainNameLoop pointerExampleBuf (g + 2) 5 [] =
        (ParserV0.parseDomainNameLoop pointerExampleBuf g 0 []).bind fun p =>
          GoResult.ok ([119, 119, 119, 46] ++ p.1, 11) := rfl
    rw [step, parserV0_pointerExample_loop0 g]
    rfl

/-- The self-referencing pointer of `selfPointerBuf` reproduces the starting
state on every hop, so every fuel is exhausted. -/
theorem parserV0_selfPointer_loop :
    ∀ f, ParserV0.parseDomainNameLoop selfPointerBuf f 0 [] = GoResult.diverge := by
  intro f
  induction f with
  | zero => rfl
  | succ g ih =>
    have step : ParserV0.parseDomainNameLoop selfPointerBuf (g + 1) 0 [] =
        (ParserV0.parseDomainNameLoop selfPointerBuf g 0 []).bind fun p =>
          GoResult.ok ([] ++ p.1, 2) := rfl
    rw [step, ih]
    rfl

/-! ### Claim theorems (code_bug evidence) -/

/-- C1: the claim says every decode of a malformed buffer surfaces as a typed
error and never as a crash.  In fact, on a 12-byte message declaring one
question, `Read` of both parser revisions indexes past the end of the buffer
while decoding the question name — a Go runtime panic, not a typed error (no
OutOfBounds/TruncatedName/TruncatedRecord values exist in the code). -/
theorem c1_read_panics_on_truncated_question :
    Parser.Read truncatedQuestionMsg 12 = GoResult.panic ∧
      ParserV0.Read 100 truncatedQuestionMsg 12 = GoResult.panic := by
  constructor <;> decide

/-- C2: the claim says a name of labels followed by a 2-octet pointer decodes
by combining the low 14 bits of both pointer octets, and that the spec's
example buffer decodes at offset 5 to "www.com" consuming 6 bytes.  In fact,
on that exact buffer part_000's `parseDomainName` never returns (the pointer
handling revisits offset 0 forever, for every fuel), and parser.go's
`parseDomainName` — which has no pointer branch at all — treats the octet 192
as a label length and panics reading past the buffer. -/
theorem c2_pointer_example_fails :
    (∀ fuel, ParserV0.parseDomainName fuel pointerExampleBuf 5 = GoResult.diverge) ∧
      Parser.parseDomainName pointerExampleBuf 5 = GoResult.panic := by
  refine ⟨fun fuel => ?_, by decide⟩
  unfold ParserV0.parseDomainName
  rw [parserV0_pointerExample_loop5 fuel]
  rfl

/-- C3: the claim says a pointer whose target is at or after its own offset is
rejected with `CompressionLoop` and that pointer hops are capped.  In fact,
part_000 has no backward-pointer check and no hop cap: on the 2-byte name
whose pointer targets its own offset, `parseDomainName` never returns — for
every fuel the decode diverges (in Go, unbounded recursion). -/
theorem c3_self_pointer_diverges :
    ∀ fuel, ParserV0.parseDomainName fuel selfPointerBuf 0 = GoResult.diverge := by
  intro fuel
  unfold ParserV0.parseDomainName
  rw [parserV0_selfPointer_loop fuel]
  rfl

/-- C5: the claim says a section decode that would read at or past the valid
length `n` fails with `SectionOverrun`.  In fact, `Read` never consults `n`
after the debug dump: with `n = 12` it happily decodes the declared question
from the stale bytes at offsets 12–16 and returns a fully populated message. -/
theorem c5_reads_past_valid_length :
    Parser.Read staleQuestionMsg 12 =
      GoResult.ok ⟨⟨0, 0, 1, 0, 0, 0⟩, [⟨[], 1, 1⟩], [], [], []⟩ := by
  decide

/-- C7: the claim says RDATA is returned as the opaque raw byte sequence for
every (type, class) pair, and that RDATA extending past the buffer fails with
`TruncatedRecord`.  In fact, part_000's `parseResource` special-cases NS
records (type 2, class 1): on `nsRecordBuf` the raw RDATA octets are `[0]`
but the returned `RData` is the re-decoded (empty) domain name; and
parser.go's `parseResource`, given `RDLENGTH = 5` with no bytes remaining,
panics instead of returning a typed error. -/
theorem c7_rdata_not_opaque_and_truncation_panics :
    ParserV0.parseResource 100 nsRecordBuf 0 =
        GoResult.ok (⟨[], 2, 1, 0, 1, []⟩, 13) ∧
      (nsRecordBuf.drop 12).take 1 = [0] ∧
      Parser.parseResource truncatedRecordBuf 0 = GoResult.panic := by
  refine ⟨by decide, by decide, by decide⟩

/-! ### `Read`'s only error return is the short-header check -/

theorem GoResult.bind_ne_err {α β : Type} {a : GoResult α} {f : α → GoResult β}
    (ha : a ≠ GoResult.err) (hf : ∀ x, f x ≠ GoResult.err) : a.bind f ≠ GoResult.err := by
  cases a with
  | ok x => exact hf x
  | err => exact absurd rfl ha
  | panic => simp [GoResult.bind]
  | diverge => simp [GoResult.bind]

theorem Parser.getUint16_ne_err (buffer : List Nat) (i : Nat) :
    Parser.getUint16 buffer i ≠ GoResult.err := by
  unfold Parser.getUint16; split <;> simp

theorem Parser.getUint32_ne_err (buffer : List Nat) (i : Nat) :
    Parser.getUint32 buffer i ≠ GoResult.err := by
  unfold Parser.getUint32; split <;> simp

theorem Parser.subslice_ne_err (buffer : List Nat) (a b : Nat) :
    Parser.subslice buffer a b ≠ GoResult.err := by
  unfold Parser.subslice; split <;> simp

theorem Parser.parseDomainNameLoop_ne_err (buffer : List Nat) :
    ∀ fuel startOff labels,
      Parser.parseDomainNameLoop buffer fuel startOff labels ≠ GoResult.err := by
  intro fuel
  induction fuel with
  | zero => intro startOff labels; simp [Parser.parseDomainNameLoop]
  | succ f ih =>
    intro startOff labels
    simp only [Parser.parseDomainNameLoop]
    split_ifs with h1 h2 h3
    · simp
    · exact ih _ _
    · simp
    · simp

theorem Parser.parseDomainName_ne_err (buffer : List Nat) (offset : Nat) :
    Parser.parseDomainName buffer offset ≠ GoResult.err := by
  unfold Parser.parseDomainName
  exact GoResult.bind_ne_err (Parser.parseDomainNameLoop_ne_err buffer _ _ _) fun p => by simp

theorem Parser.parseHeader_ne_err (buffer : List Nat) :
    Parser.parseHeader buffer ≠ GoResult.err := by
  unfold Parser.parseHeader
  exact GoResult.bind_ne_err (Parser.getUint16_ne_err _ _) fun id =>
    GoResult.bind_ne_err (Parser.getUint16_ne_err _ _) fun flags =>
    GoResult.bind_ne_err (Parser.getUint16_ne_err _ _) fun qd =>
    GoResult.bind_ne_err (Parser.getUint16_ne_err _ _) fun an =>
    GoResult.bind_ne_err (Parser.getUint16_ne_err _ _) fun ns =>
    GoResult.bind_ne_err (Parser.getUint16_ne_err _ _) fun ar => by simp

theorem Parser.parseQuestion_ne_err (buffer : List Nat) (offset : Nat) :
    Parser.parseQuestion buffer offset ≠ GoResult.err := by
  unfold Parser.parseQuestion
  exact GoResult.bind_ne_err (Parser.parseDomainName_ne_err _ _) fun qn =>
    GoResult.bind_ne_err (Parser.getUint16_ne_err _ _) fun qtype =>
    GoResult.bind_ne_err (Parser.getUint16_ne_err _ _) fun qclass => by simp

theorem Parser.parseResource_ne_err (buffer : List Nat) (offset : Nat) :
    Parser.parseResource buffer offset ≠ GoResult.err := by
  unfold Parser.parseResource
  exact GoResult.bind_ne_err (Parser.parseDomainName_ne_err _ _) fun rn =>
    GoResult.bind_ne_err (Parser.getUint16_ne_err _ _) fun rtype =>
    GoResult.bind_ne_err (Parser.getUint16_ne_err _ _) fun rclass =>
    GoResult.bind_ne_err (Parser.getUint32_ne_err _ _) fun rttl =>
    GoResult.bind_ne_err (Parser.getUint16_ne_err _ _) fun rdlen =>
    GoResult.bind_ne_err (Parser.subslice_ne_err _ _ _) fun rddata => by simp

theorem Parser.readQuestions_ne_err (buffer : List Nat) :
    ∀ count index, Parser.readQuestions buffer count index ≠ GoResult.err
  | 0, index => by simp [Parser.readQuestions]
  | count + 1, index => by
    simp only [Parser.readQuestions]
    exact GoResult.bind_ne_err (Parser.parseQuestion_ne_err _ _) fun qi =>
      GoResult.bind_ne_err (Parser.readQuestions_ne_err buffer count qi.2) fun rest => by simp

theorem Parser.readResources_ne_err (buffer : List Nat) :
    ∀ count index, Parser.readResources buffer count index ≠ GoResult.err
  | 0, index => by simp [Parser.readResources]
  | count + 1, index => by
    simp only [Parser.readResources]
    exact GoResult.bind_ne_err (Parser.parseResource_ne_err _ _) fun ri =>
      GoResult.bind_ne_err (Parser.readResources_ne_err buffer count ri.2) fun rest => by simp

/-- C6 counterexample: with a 12-byte underlying buffer and a valid length of
only `n = 0` (fewer than the 12 bytes the claim requires for a header),
`Read` does not fail — it decodes an all-zero header from the buffer's
capacity and returns a message, because the source checks `len(buffer) < 12`,
never `n < 12`. -/
theorem c6_short_n_not_rejected :
    Parser.Read (List.replicate 12 0) 0 =
        GoResult.ok ⟨⟨0, 0, 0, 0, 0, 0⟩, [], [], [], []⟩ ∧
      0 < 12 := by
  refine ⟨by decide, by decide⟩

/-- C6 (amended): `Read` fails with its ShortHeader error exactly when
`len(buffer) < 12` — the check is against the capacity of the underlying
buffer, not against the valid-length argument `n`. -/
theorem c6_amended_short_header_checks_capacity (buffer : List Nat) (n : Nat)
    (hn : n ≤ buffer.length) :
    Parser.Read buffer n = GoResult.err ↔ buffer.length < 12 := by
  unfold Parser.Read
  rw [if_pos hn]
  by_cases h : buffer.length < 12
  · simp [h]
  · simp only [if_neg h]
    constructor
    · intro habs
      exact absurd habs
        (GoResult.bind_ne_err (Parser.parseHeader_ne_err _) fun header =>
          GoResult.bind_ne_err (Parser.readQuestions_ne_err _ _ _) fun qs =>
          GoResult.bind_ne_err (Parser.readResources_ne_err _ _ _) fun ans =>
          GoResult.bind_ne_err (Parser.readResources_ne_err _ _ _) fun auth =>
          GoResult.bind_ne_err (Parser.readResources_ne_err _ _ _) fun add => by simp)
    · intro habs
      exact absurd habs h

/-- C6 witness: the amended equivalence at a concrete 12-byte buffer with
`n = 12`. -/
theorem c6_amended_short_header_checks_capacity_witness :
    Parser.Read (List.replicate 12 1) 12 = GoResult.err ↔
      (List.replicate 12 (1 : Nat)).length < 12 :=
  c6_amended_short_header_checks_capacity (List.replicate 12 1) 12 (by decide)

/-! ### Uncompressed label sequences (claim C4) -/

/-- Wire encoding of a sequence of uncompressed labels: each label preceded
by its length octet, the whole terminated by a zero octet. -/
def encodeLabels : List (List Nat) → List Nat
  | [] => [0]
  | l :: ls => (l.length :: l) ++ encodeLabels ls

theorem encodeLabels_length (ls : List (List Nat)) :
    (encodeLabels ls).length = (ls.map fun l => 1 + l.length).sum + 1 := by
  induction ls with
  | nil => rfl
  | cons l ls ih =>
    simp only [encodeLabels, List.length_append, List.length_cons, List.map_cons,
      List.sum_cons, ih]
    omega

theorem length_le_encoded_sum (ls : List (List Nat)) :
    ls.length ≤ (ls.map fun l => 1 + l.length).sum := by
  induction ls with
  | nil => simp
  | cons l ls ih =>
    simp only [List.length_cons, List.map_cons, List.sum_cons]
    omega

/-- Running parser.go's name loop over a wire-encoded label sequence placed
after a prefix `pre` appends exactly those labels and stops one past the
terminating zero octet. -/
theorem Parser.parseDomainNameLoop_encode :
    ∀ (ls : List (List Nat)) (fuel : Nat) (pre post : List Nat) (labels0 : List (List Nat)),
      (∀ l ∈ ls, 1 ≤ l.length) → ls.length + 1 ≤ fuel →
      Parser.parseDomainNameLoop (pre ++ (encodeLabels ls ++ post)) fuel pre.length labels0 =
        GoResult.ok (labels0 ++ ls, pre.length + (encodeLabels ls).length)
  | ls, 0, pre, post, labels0, hls, hfuel => absurd hfuel (by omega)
  | [], fuel + 1, pre, post, labels0, hls, hfuel => by
    have hget : (pre ++ (encodeLabels [] ++ post)).getD pre.length 0 = 0 := by
      rw [List.getD_append_right pre _ 0 pre.length (Nat.le_refl _), Nat.sub_self]
      rfl
    simp only [Parser.parseDomainNameLoop]
    rw [if_pos (by simp [List.length_append, encodeLabels]), hget, if_pos rfl]
    simp [encodeLabels]
  | l :: ls, fuel + 1, pre, post, labels0, hls, hfuel => by
    have hencpos : 1 ≤ (encodeLabels ls).length := by
      rw [encodeLabels_length]; omega
    have hget : (pre ++ (encodeLabels (l :: ls) ++ post)).getD pre.length 0 = l.length := by
      rw [List.getD_append_right pre _ 0 pre.length (Nat.le_refl _), Nat.sub_self]
      rfl
    have hlpos : 1 ≤ l.length := hls l (by simp)
    have hassoc : pre ++ (encodeLabels (l :: ls) ++ post) =
        (pre ++ (l.length :: l)) ++ (encodeLabels ls ++ post) := by
      simp [encodeLabels, List.append_assoc]
    have hlen : pre.length + 1 + l.length ≤ (pre ++ (encodeLabels (l :: ls) ++ post)).length := by
      rw [hassoc]
      simp only [List.length_append, List.length_cons]
      omega
    have hdrop : ((pre ++ (encodeLabels (l :: ls) ++ post)).drop (pre.length + 1)).take l.length
        = l := by
      have h1 : pre ++ (encodeLabels (l :: ls) ++ post) =
          (pre ++ [l.length]) ++ (l ++ (encodeLabels ls ++ post)) := by
        simp [encodeLabels, List.append_assoc]
      have h2 : pre.length + 1 = (pre ++ [l.length]).length := by
        simp
      rw [h1, h2, List.drop_left, List.take_left]
    simp only [Parser.parseDomainNameLoop]
    rw [if_pos (by omega), hget, if_neg (by omega), if_pos hlen, hdrop]
    have hstart : pre.length + 1 + l.length = (pre ++ (l.length :: l)).length := by
      simp; omega
    rw [hassoc, hstart,
      Parser.parseDomainNameLoop_encode ls fuel (pre ++ (l.length :: l)) post
        (labels0 ++ [l]) (fun x hx => hls x (by simp [hx])) (by simp at hfuel; omega)]
    have hsum : (pre ++ (l.length :: l)).length + (encodeLabels ls).length =
        pre.length + (encodeLabels (l :: ls)).length := by
      simp [encodeLabels, List.length_append]
      omega
    rw [hsum]
    simp

/-- C4: a domain name consisting of uncompressed labels (lengths 1–63)
terminated by a zero octet decodes, in parser.go's `parseDomainName`, to the
labels joined with dots — no leading/trailing dot, no length bytes — and
consumes the sum over the labels of (1 + length) plus one byte for the
terminating zero. -/
theorem c4_uncompressed_names_decode (pre post : List Nat) (ls : List (List Nat))
    (hls : ∀ l ∈ ls, 1 ≤ l.length ∧ l.length ≤ 63) :
    Parser.parseDomainName (pre ++ (encodeLabels ls ++ post)) pre.length =
      GoResult.ok (List.intercalate [46] ls, (ls.map fun l => 1 + l.length).sum + 1) := by
  have h1 : ∀ l ∈ ls, 1 ≤ l.length := fun l hl => (hls l hl).1
  have hlen := encodeLabels_length ls
  have hsum := length_le_encoded_sum ls
  unfold Parser.parseDomainName
  rw [Parser.parseDomainNameLoop_encode ls ((pre ++ (encodeLabels ls ++ post)).length + 1)
    pre post [] h1 (by simp only [List.length_append]; omega)]
  simp only [GoResult.ok_bind, List.nil_append, Nat.add_sub_cancel_left, hlen]

/-- C4 witness: the spec's two examples — `[3,'w','w','w',3,'c','o','m',0]`
decodes to "www.com" consuming 9 bytes, and the root name `[0]` decodes to
the empty string consuming 1 byte. -/
theorem c4_uncompressed_names_decode_witness :
    Parser.parseDomainName [3, 119, 119, 119, 3, 99, 111, 109, 0] 0 =
        GoResult.ok ([119, 119, 119, 46, 99, 111, 109], 9) ∧
      Parser.parseDomainName [0] 0 = GoResult.ok ([], 1) := by
  constructor
  · exact c4_uncompressed_names_decode [] [] [[119, 119, 119], [99, 111, 109]] (by decide)
  · exact c4_uncompressed_names_decode [] [] [] (by decide)

/-! ### Header decoding (claim C9) -/

/-- C9: for any buffer of at least 12 bytes, parser.go's `parseHeader`
returns exactly the six big-endian 16-bit integers found at byte offsets
0, 2, 4, 6, 8 and 10, in the order ID, Flags, QdCount, AnCount, NsCount,
ArCount. -/
theorem c9_header_big_endian_fields (buffer : List Nat) (h : 12 ≤ buffer.length) :
    Parser.parseHeader buffer =
      GoResult.ok ⟨be16 buffer 0, be16 buffer 2, be16 buffer 4,
        be16 buffer 6, be16 buffer 8, be16 buffer 10⟩ := by
  have h0 : (0 : Nat) + 2 ≤ buffer.length := by omega
  have h2 : (2 : Nat) + 2 ≤ buffer.length := by omega
  have h4 : (4 : Nat) + 2 ≤ buffer.length := by omega
  have h6 : (6 : Nat) + 2 ≤ buffer.length := by omega
  have h8 : (8 : Nat) + 2 ≤ buffer.length := by omega
  have h10 : (10 : Nat) + 2 ≤ buffer.length := by omega
  simp [Parser.parseHeader, Parser.getUint16, h0, h2, h4, h6, h8, h10]

/-- C9 witness: the field extraction at a concrete 12-byte buffer. -/
theorem c9_header_big_endian_fields_witness :
    Parser.parseHeader [1, 2, 3, 4, 5, 6, 7, 8, 9, 10, 11, 12] =
      GoResult.ok ⟨be16 [1, 2, 3, 4, 5, 6, 7, 8, 9, 10, 11, 12] 0,
        be16 [1, 2, 3, 4, 5, 6, 7, 8, 9, 10, 11, 12] 2,
        be16 [1, 2, 3, 4, 5, 6, 7, 8, 9, 10, 11, 12] 4,
        be16 [1, 2, 3, 4, 5, 6, 7, 8, 9, 10, 11, 12] 6,
        be16 [1, 2, 3, 4, 5, 6, 7, 8, 9, 10, 11, 12] 8,
        be16 [1, 2, 3, 4, 5, 6, 7, 8, 9, 10, 11, 12] 10⟩ :=
  c9_header_big_endian_fields [1, 2, 3, 4, 5, 6, 7, 8, 9, 10, 11, 12] (by decide)

/-! ### The decoded payload does not depend on the valid length (claim C10) -/

/-- C10: for a buffer of at least 12 bytes and any two valid lengths, `Read`
returns identical results — the valid-length argument `n` only feeds the
debug byte dump, so bytes beyond `n` participate fully in decoding.  This
holds for both parser revisions. -/
theorem c10_read_independent_of_n (buffer : List Nat) (n1 n2 : Nat)
    (_h12 : 12 ≤ buffer.length) (h1 : n1 ≤ buffer.length) (h2 : n2 ≤ buffer.length) :
    Parser.Read buffer n1 = Parser.Read buffer n2 ∧
      ∀ fuel, ParserV0.Read fuel buffer n1 = ParserV0.Read fuel buffer n2 := by
  constructor
  · unfold Parser.Read
    rw [if_pos h1, if_pos h2]
  · intro fuel
    unfold ParserV0.Read
    rw [if_pos h1, if_pos h2]

/-- C10 witness: a 16-byte buffer read once with `n = 3` and once with
`n = 16` produces the same result. -/
theorem c10_read_independent_of_n_witness :
    Parser.Read (List.range 16) 3 = Parser.Read (List.range 16) 16 :=
  (c10_read_independent_of_n (List.range 16) 3 16 (by decide) (by decide) (by decide)).1

/-- C8: the claim says a reconstructed name longer than 255 octets fails with
`NameTooLong`.  In fact, no such check exists: on five 63-byte labels
parser.go's `parseDomainName` returns a 319-octet name without error. -/
theorem c8_overlong_name_returned :
    Parser.parseDomainName overlongNameBuf 0 =
        GoResult.ok (List.intercalate [46] (List.replicate 5 (List.replicate 63 97)), 321) ∧
      255 < (List.intercalate [46] (List.replicate 5 (List.replicate 63 97))).length := by
  refine ⟨by decide, by decide⟩
